import Mathlib

/-!
Shallow embedding of the calmnews core (Go) for specification checking.

Source files:
- `src/unnamed/part_002` — ingestion scheduler (`fetchAllFeeds`, `fetchAndStoreFeed`)
- `src/unnamed/part_003` — normalizer (`ParseFeed`) and fetcher (`FetchFeed`)
- `src/unnamed/part_004` — blocklist filter (`ShouldFilter`, `FilterArticles`)
- `src/unnamed/part_005` — storage layer (`UpsertArticle`, `DeleteExpiredArticles`,
  `ListArticlesByView`, `ArticleExistsByTitle`, ...)

Modelling conventions:
- wall-clock instants are `Int` values counted in seconds;
- a SQL table is a `List` of rows in insertion order;
- the network and the external feed-parsing library (`gofeed`) appear as
  explicit inputs (an `HTTPResponse` value, a parse function);
- Go `string` is Lean `String`; the Go `strings` helpers used by the filter
  are re-implemented over `List Char` so that they compute by kernel
  reduction (`ToLower`, `TrimSpace`, `Contains`).
-/

namespace CalmNews

/-- Feed row (src/unnamed/part_005 lines 12-19). `lastFetchedAt` is the nullable
`last_fetched_at` column, a wall-clock instant in seconds. -/
structure Feed where
  id : String
  name : String
  url : String
  category : String
  enabled : Bool
  lastFetchedAt : Option Int
deriving DecidableEq

/-- Article row (src/unnamed/part_005 lines 22-35). `publishedAt` and `fetchedAt`
are wall-clock instants in seconds; both columns are NOT NULL. -/
structure Article where
  id : String
  feedId : String
  title : String
  url : String
  summary : String
  content : String
  publishedAt : Int
  fetchedAt : Int
  sourceName : String
  categories : String
  isRead : Bool
  isSaved : Bool
deriving DecidableEq

/-- One entry of the configuration file's feed list; only the fields the
scheduler reads (src/unnamed/part_002 lines 60-64) are modelled. -/
structure FeedConfig where
  id : String
  refreshIntervalMinutes : Option Int
deriving DecidableEq

/-- One parsed feed entry, the fields of `gofeed.Item` read by `ParseFeed`
(src/unnamed/part_003 lines 22-69). A `gofeed` string field is `""` when the
entry lacks it; `publishedParsed`/`updatedParsed` are nullable instants. -/
structure FeedItem where
  guid : String
  link : String
  title : String
  description : String
  content : String
  publishedParsed : Option Int
  updatedParsed : Option Int
deriving DecidableEq

/-- An HTTP response as `FetchFeed` observes it: a status code and the body
bytes (src/unnamed/part_003 lines 104-121). -/
structure HTTPResponse where
  statusCode : Nat
  body : List Nat
deriving DecidableEq

/-- The two relations owned by the store (src/unnamed/part_005). -/
structure SystemDB where
  feeds : List Feed
  articles : List Article
deriving DecidableEq

/-- Article literal with every column at its zero value; concrete test rows
are built from it with structure-update syntax. -/
def baseArticle : Article :=
  { id := "", feedId := "", title := "", url := "", summary := "", content := ""
    publishedAt := 0, fetchedAt := 0, sourceName := "", categories := ""
    isRead := false, isSaved := false }

/-- Feed literal with every column at its zero value (enabled, never fetched). -/
def baseFeed : Feed :=
  { id := "", name := "", url := "", category := "", enabled := true
    lastFetchedAt := none }

/-! ## Storage layer (src/unnamed/part_005) -/

/-- hashArticleID (src/unnamed/part_005 lines 38-42) digests
`feedURL ++ "|" ++ entryGUID` with SHA-256 and hex-encodes it. No claim
inspects digest bytes, so the digest is modelled by its own input, an
injective stand-in that preserves determinism and input-dependence. -/
def hashArticleID (feedURL entryGUID : String) : String :=
  feedURL ++ "|" ++ entryGUID

/-- GenerateArticleID (src/unnamed/part_005 lines 301-303). -/
def GenerateArticleID (feedURL entryGUID : String) : String :=
  hashArticleID feedURL entryGUID

/-- ArticleExistsByTitle (src/unnamed/part_005 lines 306-314):
`SELECT COUNT(*) FROM articles WHERE title = ?` compared with 0. -/
def ArticleExistsByTitle (db : List Article) (title : String) : Bool :=
  db.any fun s => s.title == title

/-- The `ON CONFLICT(id) DO UPDATE SET` arm of UpsertArticle
(src/unnamed/part_005 lines 135-145). `boundIsRead`/`boundIsSaved` are the
values bound for `excluded.is_read`/`excluded.is_saved`; the three `COALESCE`
expressions resolve as follows: `fetched_at` keeps the stored value (the
column is NOT NULL in a stored row), and `is_read`/`is_saved` fall back to the
stored value only when the bound value is NULL. `feed_id` is absent from the
SET list, so it keeps the stored value. -/
def conflictUpdate (stored excluded : Article)
    (boundIsRead boundIsSaved : Option Bool) : Article :=
  { id := stored.id
    feedId := stored.feedId
    title := excluded.title
    url := excluded.url
    summary := excluded.summary
    content := excluded.content
    publishedAt := excluded.publishedAt
    fetchedAt := stored.fetchedAt
    sourceName := excluded.sourceName
    categories := excluded.categories
    isRead := boundIsRead.getD stored.isRead
    isSaved := boundIsSaved.getD stored.isSaved }

/-- UpsertArticle (src/unnamed/part_005 lines 131-164). The Go wrapper binds
`is_read`/`is_saved` as the integers 0/1 — never NULL — so the conflict arm
receives `some article.isRead` / `some article.isSaved`. Without a conflict the
row is appended. -/
def UpsertArticle (db : List Article) (article : Article) : List Article :=
  if db.any (fun s => s.id == article.id) then
    db.map fun s =>
      if s.id == article.id then
        conflictUpdate s article (some article.isRead) (some article.isSaved)
      else s
  else
    db ++ [article]

/-- DeleteExpiredArticles (src/unnamed/part_005 lines 282-298):
`DELETE FROM articles WHERE is_saved = 0 AND datetime(fetched_at, '+h hours')
< datetime('now')`, returning the number of rows deleted. The first component
is the surviving table, the second the count of deleted rows. -/
def DeleteExpiredArticles (db : List Article) (expirationHours now : Int) :
    List Article × Nat :=
  let expired : Article → Bool := fun a =>
    a.isSaved == false && decide (a.fetchedAt + expirationHours * 3600 < now)
  (db.filter (fun a => !(expired a)), (db.filter expired).length)

/-- UpdateFeedLastFetched (src/unnamed/part_005 lines 121-128):
`UPDATE feeds SET last_fetched_at = ? WHERE id = ?`. -/
def UpdateFeedLastFetched (feeds : List Feed) (feedID : String) (t : Int) :
    List Feed :=
  feeds.map fun f =>
    if f.id == feedID then { f with lastFetchedAt := some t } else f

/-- ListFeeds (src/unnamed/part_005 lines 64-99) restricted to what the
scheduler consumes: the set of rows with `enabled = 1` when `enabledOnly`
(the `ORDER BY name` clause only affects presentation order and no claim
depends on it). -/
def ListFeeds (feeds : List Feed) (enabledOnly : Bool) : List Feed :=
  if enabledOnly then feeds.filter (fun f => f.enabled) else feeds

/-- The row order produced by `ORDER BY is_read ASC, published_at DESC`
(src/unnamed/part_005 line 221): with `is_read` stored as 0/1, a row sorts
before another when its `is_read` is strictly smaller (unread first) or the
two agree and its `published_at` is at least the other's. -/
def viewOrder (a b : Article) : Prop :=
  (a.isRead = false ∧ b.isRead = true) ∨
    (a.isRead = b.isRead ∧ b.publishedAt ≤ a.publishedAt)

instance : DecidableRel viewOrder := fun a b => by
  unfold viewOrder; infer_instance

instance : IsTotal Article viewOrder :=
  ⟨by
    intro a b
    unfold viewOrder
    cases ha : a.isRead <;> cases hb : b.isRead <;>
      rcases le_total a.publishedAt b.publishedAt with h | h <;> simp_all⟩

instance : IsTrans Article viewOrder :=
  ⟨by
    intro a b c hab hbc
    unfold viewOrder at *
    rcases hab with ⟨h1, h2⟩ | ⟨h1, h2⟩ <;> rcases hbc with ⟨h3, h4⟩ | ⟨h3, h4⟩
    · simp_all
    · exact Or.inl ⟨h1, h3 ▸ h2⟩
    · exact Or.inl ⟨h1.trans h3, h4⟩
    · exact Or.inr ⟨h1.trans h3, le_trans h4 h2⟩⟩

/-- ListArticlesByView (src/unnamed/part_005 lines 168-249). `now` is the
instant `time.Now()` returns and `startOfToday` the instant
`time.Date(now.Year(), now.Month(), now.Day(), 0, 0, 0, 0, now.Location())`
computes (local midnight); Go's `AddDate(0, 0, -n)` is `n * 86400` seconds
back. The `WHERE` clauses combine exactly as the Go code concatenates them,
and `ORDER BY is_read ASC, published_at DESC LIMIT ?` is a `viewOrder` sort
followed by `take`. Unknown views share the `latest` arm (`fallthrough` from
`default`). -/
def ListArticlesByView (db : List Article) (view feedID readFilter : String)
    (limit : Nat) (now startOfToday : Int) : List Article :=
  let baseWhere : Article → Bool :=
    if view == "saved" then fun a => a.isSaved
    else if view == "today" then fun a => decide (startOfToday ≤ a.publishedAt)
    else if view == "week" then fun a => decide (now - 7 * 86400 ≤ a.publishedAt)
    else fun a => decide (now - 3 * 86400 ≤ a.publishedAt)
  let feedWhere : Article → Bool :=
    if feedID != "" && feedID != "all" then fun a => a.feedId == feedID
    else fun _ => true
  let readWhere : Article → Bool :=
    if readFilter == "unread" then fun a => a.isRead == false
    else if readFilter == "read" then fun a => a.isRead == true
    else fun _ => true
  (List.insertionSort viewOrder
      (db.filter fun a => baseWhere a && feedWhere a && readWhere a)).take limit

/-! ## Content fetcher (src/unnamed/part_003 lines 86-122) -/

/-- maxResponseSize (src/unnamed/part_003 line 87): 10 MiB. -/
def maxResponseSize : Nat := 10 * 1024 * 1024

/-- FetchFeed (src/unnamed/part_003 lines 92-122). The argument is the outcome
of `client.Do`: a transport error or an `HTTPResponse`. A non-200 status is an
error; otherwise the body is read through `io.LimitReader`, i.e. truncated to
`maxResponseSize` bytes. -/
def FetchFeed (resp : Except String HTTPResponse) : Except String (List Nat) :=
  match resp with
  | .error e => .error ("failed to fetch feed: " ++ e)
  | .ok r =>
    if r.statusCode ≠ 200 then
      .error ("unexpected status code: " ++ toString r.statusCode)
    else
      .ok (r.body.take maxResponseSize)

/-! ## Feed normalizer (src/unnamed/part_003 lines 12-75) -/

/-- The per-entry normalization of `ParseFeed`'s loop body
(src/unnamed/part_003 lines 22-71): GUID-else-link identity, published-else-
updated-else-now publish time, description-else-content summary,
content-else-description content, `isRead`/`isSaved` false. -/
def normalizeItem (feedURL feedID sourceName : String) (now : Int)
    (item : FeedItem) : Article :=
  let entryGUID := if item.guid == "" then item.link else item.guid
  let articleID := GenerateArticleID feedURL entryGUID
  let publishedAt :=
    match item.publishedParsed with
    | some t => t
    | none =>
      match item.updatedParsed with
      | some t => t
      | none => now
  let summary :=
    if item.description != "" then item.description
    else if item.content != "" then item.content
    else ""
  let content :=
    if item.content != "" then item.content
    else if item.description != "" then item.description
    else ""
  { id := articleID, feedId := feedID, title := item.title, url := item.link
    summary := summary, content := content, publishedAt := publishedAt
    fetchedAt := now, sourceName := sourceName, categories := ""
    isRead := false, isSaved := false }

/-- ParseFeed (src/unnamed/part_003 lines 12-75). The `gofeed` parse of the
raw bytes is an input: a parse error or the list of items; on success every
item is normalized with one shared `now`. -/
def ParseFeed (parsed : Except String (List FeedItem))
    (feedURL feedID sourceName : String) (now : Int) :
    Except String (List Article) :=
  match parsed with
  | .error e => .error ("failed to parse feed: " ++ e)
  | .ok items => .ok (items.map (normalizeItem feedURL feedID sourceName now))

/-! ## Blocklist filter (src/unnamed/part_004) -/

/-- Go `strings.ToLower` over the characters of a string. -/
def lowerChars (s : List Char) : List Char := s.map Char.toLower

/-- Go `strings.TrimSpace`: drop leading and trailing whitespace characters. -/
def trimChars (s : List Char) : List Char :=
  ((s.dropWhile Char.isWhitespace).reverse.dropWhile Char.isWhitespace).reverse

/-- True when the second character list begins with the first. -/
def startsWithChars : List Char → List Char → Bool
  | [], _ => true
  | _ :: _, [] => false
  | p :: ps, c :: cs => p == c && startsWithChars ps cs

/-- Go `strings.Contains`: the first list occurs contiguously in the second. -/
def containsChars : List Char → List Char → Bool
  | pat, [] => startsWithChars pat []
  | pat, c :: cs => startsWithChars pat (c :: cs) || containsChars pat cs

/-- ShouldFilter (src/unnamed/part_004 lines 10-30): lowercase the
concatenation `title ++ " " ++ summary`, then scan the blocklist, skipping any
phrase whose trimmed, lowercased form is empty, and report whether some
remaining phrase occurs in the blob. -/
def ShouldFilter (article : Article) (blocklist : List String) : Bool :=
  if blocklist.isEmpty then false
  else
    let textBlob := lowerChars (article.title ++ " " ++ article.summary).data
    blocklist.any fun phrase =>
      let lowerPhrase := lowerChars (trimChars phrase.data)
      !lowerPhrase.isEmpty && containsChars lowerPhrase textBlob

/-- FilterArticles (src/unnamed/part_004 lines 33-46): split a batch into the
kept articles (in order) and the count of filtered ones. -/
def FilterArticles : List Article → List String → List Article × Nat
  | [], _ => ([], 0)
  | a :: rest, blocklist =>
    let res := FilterArticles rest blocklist
    if ShouldFilter a blocklist then (res.1, res.2 + 1)
    else (a :: res.1, res.2)

/-! ## Ingestion scheduler (src/unnamed/part_002) -/

/-- defaultInterval (src/unnamed/part_002 line 53): 10 minutes, in seconds. -/
def defaultFetchInterval : Int := 10 * 60

/-- The per-feed interval lookup (src/unnamed/part_002 lines 58-65): the first
configuration entry matching the feed id with a non-nil
`RefreshIntervalMinutes` wins, else the default. -/
def feedInterval (cfgFeeds : List FeedConfig) (feedID : String) : Int :=
  match cfgFeeds.find? (fun c => c.id == feedID && c.refreshIntervalMinutes.isSome) with
  | some c => c.refreshIntervalMinutes.getD 10 * 60
  | none => defaultFetchInterval

/-- The due gate of `fetchAllFeeds` (src/unnamed/part_002 lines 55-71): the
feed is skipped exactly when `lastFetchedAt` is set and
`now - lastFetchedAt < interval`; this is its negation. -/
def feedDueForFetch (cfgFeeds : List FeedConfig) (feed : Feed) (now : Int) :
    Bool :=
  match feed.lastFetchedAt with
  | none => true
  | some last => !decide (now - last < feedInterval cfgFeeds feed.id)

/-- The feeds for which one `fetchAllFeeds` cycle (src/unnamed/part_002 lines
45-81) executes a fetch attempt: the enabled feeds (`ListFeeds(db, true)`)
that pass the due gate. -/
def dueFeeds (feeds : List Feed) (cfgFeeds : List FeedConfig) (now : Int) :
    List Feed :=
  (ListFeeds feeds true).filter fun f => feedDueForFetch cfgFeeds f now

/-- The title-dedup pre-filter of `fetchAndStoreFeed` (src/unnamed/part_002
lines 96-108): drop every parsed article whose title already occurs in the
articles table; every check queries the same table state, since the upsert
loop only starts afterwards. -/
def uniqueByTitle (db articles : List Article) : List Article :=
  articles.filter fun a => !ArticleExistsByTitle db a.title

/-- fetchAndStoreFeed (src/unnamed/part_002 lines 83-125). `resp` is the
outcome of the HTTP request and `parse` the `gofeed`-backed `ParseFeed` call
on the fetched bytes. A fetch or parse error returns before anything is
written. On success the survivors of the title guard are upserted in order
and only then is `last_fetched_at` set to `now` (the `time.Now()` at line
119). The second component is the function's error result. -/
def fetchAndStoreFeed (db : SystemDB) (feed : Feed)
    (resp : Except String HTTPResponse)
    (parse : List Nat → Except String (List Article)) (now : Int) :
    SystemDB × Except String Unit :=
  match FetchFeed resp with
  | .error e => (db, .error ("failed to fetch: " ++ e))
  | .ok data =>
    match parse data with
    | .error e => (db, .error ("failed to parse: " ++ e))
    | .ok articles =>
      let uniqueArticles := uniqueByTitle db.articles articles
      let newArticles := uniqueArticles.foldl UpsertArticle db.articles
      ({ feeds := UpdateFeedLastFetched db.feeds feed.id now
         articles := newArticles }, .ok ())

/-! ## Theorems -/

/-- The two halves of a filter partition a list's length. -/
theorem filter_partition_length {α : Type} (p : α → Bool) (l : List α) :
    (l.filter p).length + (l.filter fun a => !p a).length = l.length := by
  induction l with
  | nil => rfl
  | cons a as ih =>
    cases h : p a <;> simp [List.filter_cons, h] <;> omega

/-- C1: the claim says a later upsert of the same id leaves the stored
`isRead`/`isSaved` unchanged. On the code it does not: the conflict arm's
`COALESCE(excluded.is_read, articles.is_read)` (and likewise `is_saved`) runs
over a bind the Go wrapper always sets to 0/1, so the incoming values win.
Concretely, re-upserting id `a1` (stored `isRead = true`, `isSaved = true`,
`fetchedAt = 50`) with incoming `false`/`false` refreshes `title`, preserves
`fetchedAt`, and resets both user-state flags — not the claimed
`("new", 50, true, true)`. -/
theorem upsertArticle_resets_read_saved :
    ((UpsertArticle
        [{ baseArticle with
            id := "a1", title := "old", fetchedAt := 50, publishedAt := 3
            isRead := true, isSaved := true }]
        { baseArticle with
            id := "a1", title := "new", fetchedAt := 99, publishedAt := 7 }).map
        fun r => (r.title, r.fetchedAt, r.isRead, r.isSaved))
      = [("new", (50 : Int), false, false)] ∧
    ((UpsertArticle
        [{ baseArticle with
            id := "a1", title := "old", fetchedAt := 50, publishedAt := 3
            isRead := true, isSaved := true }]
        { baseArticle with
            id := "a1", title := "new", fetchedAt := 99, publishedAt := 7 }).map
        fun r => (r.title, r.fetchedAt, r.isRead, r.isSaved))
      ≠ [("new", (50 : Int), true, true)] := by
  constructor <;> decide

/-- C2: expiry keeps exactly the articles that are saved or not yet older
than `expirationHours`, reports the count of deleted rows, never deletes a
saved article, and on the spec's example `expire(72)` deletes the 73-hour-old
unsaved article, keeps the 71-hour-old one, and keeps an arbitrarily old
saved one. -/
theorem deleteExpiredArticles_spec (db : List Article) (hours now : Int)
    (a : Article) :
    (a ∈ (DeleteExpiredArticles db hours now).1 ↔
      a ∈ db ∧ (a.isSaved = true ∨ now ≤ a.fetchedAt + hours * 3600)) ∧
    ((DeleteExpiredArticles db hours now).2
        + (DeleteExpiredArticles db hours now).1.length = db.length) ∧
    (a ∈ db → a.isSaved = true → a ∈ (DeleteExpiredArticles db hours now).1) ∧
    (DeleteExpiredArticles
        [{ baseArticle with id := "old73", fetchedAt := (200 - 73) * 3600 },
         { baseArticle with id := "new71", fetchedAt := (200 - 71) * 3600 },
         { baseArticle with id := "oldSaved", isSaved := true }]
        72 (200 * 3600)
      = ([{ baseArticle with id := "new71", fetchedAt := (200 - 71) * 3600 },
          { baseArticle with id := "oldSaved", isSaved := true }], 1)) := by
  refine ⟨?_, ?_, ?_, by decide⟩
  · simp only [DeleteExpiredArticles, List.mem_filter]
    constructor
    · rintro ⟨hm, hp⟩
      refine ⟨hm, ?_⟩
      cases hs : a.isSaved
      · right
        simp [hs] at hp
        omega
      · exact Or.inl rfl
    · rintro ⟨hm, hp⟩
      refine ⟨hm, ?_⟩
      cases hs : a.isSaved
      · rcases hp with hs2 | hn
        · rw [hs] at hs2
          cases hs2
        · simp [hs]
          omega
      · simp [hs]
  · simp only [DeleteExpiredArticles]
    exact filter_partition_length
      (fun a => a.isSaved == false && decide (a.fetchedAt + hours * 3600 < now)) db
  · intro hm hs
    simp [DeleteExpiredArticles, List.mem_filter, hs, hm]

/-- Closed instance of `deleteExpiredArticles_spec`: a saved article survives
`expire(72)` even with `fetchedAt` far in the past. -/
theorem deleteExpiredArticles_spec_witness :
    { baseArticle with isSaved := true } ∈ [{ baseArticle with isSaved := true }] ∧
    ({ baseArticle with isSaved := true } : Article).isSaved = true ∧
    { baseArticle with isSaved := true }
      ∈ (DeleteExpiredArticles [{ baseArticle with isSaved := true }] 72 1000000).1 :=
  ⟨by decide, by decide,
    (deleteExpiredArticles_spec [{ baseArticle with isSaved := true }] 72 1000000
        { baseArticle with isSaved := true }).2.2.1 (by decide) (by decide)⟩

/-- C3 (amended): `lastFetchedAt` advances only when the fetch and the parse
both succeed; a fetch error or a parse error returns from
`fetchAndStoreFeed` before `UpdateFeedLastFetched` runs, leaving the whole
store — in particular the feed's timestamp — unchanged. On success every feed
row with the fetched feed's id is stamped with the attempt time `now`. -/
theorem lastFetched_advances_only_on_success (db : SystemDB) (feed : Feed)
    (resp : Except String HTTPResponse)
    (parse : List Nat → Except String (List Article)) (now : Int) :
    (∀ e, FetchFeed resp = .error e →
      (fetchAndStoreFeed db feed resp parse now).1 = db) ∧
    (∀ data e, FetchFeed resp = .ok data → parse data = .error e →
      (fetchAndStoreFeed db feed resp parse now).1 = db) ∧
    (∀ data arts, FetchFeed resp = .ok data → parse data = .ok arts →
      ∀ f ∈ (fetchAndStoreFeed db feed resp parse now).1.feeds,
        f.id = feed.id → f.lastFetchedAt = some now) := by
  refine ⟨?_, ?_, ?_⟩
  · intro e he
    simp [fetchAndStoreFeed, he]
  · intro data e hf hp
    simp [fetchAndStoreFeed, hf, hp]
  · intro data arts hf hp f hmem hid
    simp only [fetchAndStoreFeed, hf, hp, UpdateFeedLastFetched] at hmem
    rcases List.mem_map.mp hmem with ⟨g, hg, rfl⟩
    by_cases h : g.id = feed.id
    · simp [h]
    · rw [if_neg (by simpa using h)] at hid ⊢
      exact absurd hid h

/-- Closed instance of `lastFetched_advances_only_on_success`: a transport
error leaves the store untouched. -/
theorem lastFetched_advances_only_on_success_witness :
    (fetchAndStoreFeed ⟨[], []⟩ baseFeed (.error "net") (fun _ => .ok []) 5).1
      = (⟨[], []⟩ : SystemDB) :=
  (lastFetched_advances_only_on_success ⟨[], []⟩ baseFeed (.error "net")
      (fun _ => .ok []) 5).1 "failed to fetch feed: net" rfl

/-- C3 (counterexample to the claim as stated): a feed whose payload fails to
parse does not get its `lastFetchedAt` advanced — the timestamp stays at its
prior value `some 0` instead of the attempt time 999, so a permanently broken
feed is retried on every tick. -/
theorem parse_error_leaves_lastFetched_unchanged :
    ((fetchAndStoreFeed
        { feeds := [{ baseFeed with id := "f0", lastFetchedAt := some 0 }]
          articles := [] }
        { baseFeed with id := "f0", lastFetchedAt := some 0 }
        (.ok { statusCode := 200, body := [] })
        (fun _ => .error "malformed") 999).1.feeds.map fun f => f.lastFetchedAt)
      = [some 0] ∧
    ((fetchAndStoreFeed
        { feeds := [{ baseFeed with id := "f0", lastFetchedAt := some 0 }]
          articles := [] }
        { baseFeed with id := "f0", lastFetchedAt := some 0 }
        (.ok { statusCode := 200, body := [] })
        (fun _ => .error "malformed") 999).1.feeds.map fun f => f.lastFetchedAt)
      ≠ [some 999] := by
  constructor <;> decide

/-- C4: the title-dedup guard drops a normalized article exactly when some
stored article carries the identical title — article ids play no role in the
test — and in the cross-feed scenario two entries with the same title arriving
from different feeds in successive fetches end with only the first persisted;
the second is silently dropped. -/
theorem title_dedup_guard_spec (db batch : List Article) (a : Article) :
    (a ∈ uniqueByTitle db batch ↔ a ∈ batch ∧ ∀ s ∈ db, s.title ≠ a.title) ∧
    (let f1 := { baseFeed with id := "feed1" }
     let f2 := { baseFeed with id := "feed2" }
     let artA := { baseArticle with id := "idA", feedId := "feed1", title := "Shared Story" }
     let artB := { baseArticle with id := "idB", feedId := "feed2", title := "Shared Story" }
     let ok200 : Except String HTTPResponse := .ok { statusCode := 200, body := [] }
     let st1 := (fetchAndStoreFeed { feeds := [f1, f2], articles := [] } f1 ok200
        (fun _ => .ok [artA]) 10).1
     let st2 := (fetchAndStoreFeed st1 f2 ok200 (fun _ => .ok [artB]) 20).1
     st1.articles = [artA] ∧ st2.articles = [artA]) := by
  constructor
  · simp [uniqueByTitle, ArticleExistsByTitle, List.mem_filter]
  · decide

/-- Closed instance of `title_dedup_guard_spec`: with an empty table the guard
keeps an article. -/
theorem title_dedup_guard_spec_witness :
    { baseArticle with id := "w4" }
      ∈ uniqueByTitle [] [{ baseArticle with id := "w4" }] :=
  (title_dedup_guard_spec [] [{ baseArticle with id := "w4" }]
      { baseArticle with id := "w4" }).1.mpr ⟨by decide, by simp⟩

/-- C6: one scheduler cycle attempts a fetch exactly for the enabled feeds
that are due — `lastFetchedAt` unset, or at least the configured interval
(default 10 minutes when unset) in the past. A 5-minute-old timestamp with the
default interval is skipped; 10 or 11 minutes old is fetched. -/
theorem scheduler_due_gate_spec (feeds : List Feed) (cfg : List FeedConfig)
    (now : Int) (f : Feed) :
    (f ∈ dueFeeds feeds cfg now ↔
      f ∈ feeds ∧ f.enabled = true ∧
        (f.lastFetchedAt = none ∨
          ∃ t, f.lastFetchedAt = some t ∧ feedInterval cfg f.id ≤ now - t)) ∧
    (feedInterval [] f.id = 10 * 60) ∧
    (feedDueForFetch [] { f with lastFetchedAt := some (now - 5 * 60) } now = false) ∧
    (feedDueForFetch [] { f with lastFetchedAt := some (now - 10 * 60) } now = true) ∧
    (feedDueForFetch [] { f with lastFetchedAt := some (now - 11 * 60) } now = true) := by
  refine ⟨?_, rfl, ?_, ?_, ?_⟩
  · simp only [dueFeeds, ListFeeds, if_true, List.mem_filter]
    rcases hl : f.lastFetchedAt with _ | t
    · simp [feedDueForFetch, hl, and_assoc]
    · simp [feedDueForFetch, hl, and_assoc, not_lt]
  · simp [feedDueForFetch, feedInterval, defaultFetchInterval]
  · simp [feedDueForFetch, feedInterval, defaultFetchInterval]
  · simp [feedDueForFetch, feedInterval, defaultFetchInterval]

/-- C10: within one fetch batch every title check runs against the table as it
was before any of the batch's upserts, so items of the batch never dedup each
other: any two batch members whose titles are absent from the stored table
both survive the guard, and in the concrete run a batch carrying two articles
with the same title ends with both rows upserted. -/
theorem batch_guard_uses_prefetch_state (db batch : List Article)
    (x y : Article) (hx : x ∈ batch) (hy : y ∈ batch)
    (hxf : ∀ s ∈ db, s.title ≠ x.title) (hyf : ∀ s ∈ db, s.title ≠ y.title) :
    (x ∈ uniqueByTitle db batch ∧ y ∈ uniqueByTitle db batch) ∧
    (let x0 := { baseArticle with id := "id1", title := "Dup Title" }
     let y0 := { baseArticle with id := "id2", title := "Dup Title" }
     (fetchAndStoreFeed { feeds := [baseFeed], articles := [] } baseFeed
        (.ok { statusCode := 200, body := [] })
        (fun _ => .ok [x0, y0]) 5).1.articles = [x0, y0]) := by
  refine ⟨⟨?_, ?_⟩, by decide⟩
  · simp only [uniqueByTitle, ArticleExistsByTitle, List.mem_filter]
    refine ⟨hx, ?_⟩
    simp only [Bool.not_eq_true', List.any_eq_false]
    intro s hs
    simpa using hxf s hs
  · simp only [uniqueByTitle, ArticleExistsByTitle, List.mem_filter]
    refine ⟨hy, ?_⟩
    simp only [Bool.not_eq_true', List.any_eq_false]
    intro s hs
    simpa using hyf s hs

/-- Closed instance of `batch_guard_uses_prefetch_state`: two same-titled
batch members both pass the guard over an empty table. -/
theorem batch_guard_uses_prefetch_state_witness :
    { baseArticle with id := "id1", title := "Dup Title" }
      ∈ uniqueByTitle [] [{ baseArticle with id := "id1", title := "Dup Title" },
          { baseArticle with id := "id2", title := "Dup Title" }] ∧
    { baseArticle with id := "id2", title := "Dup Title" }
      ∈ uniqueByTitle [] [{ baseArticle with id := "id1", title := "Dup Title" },
          { baseArticle with id := "id2", title := "Dup Title" }] :=
  (batch_guard_uses_prefetch_state []
      [{ baseArticle with id := "id1", title := "Dup Title" },
       { baseArticle with id := "id2", title := "Dup Title" }]
      { baseArticle with id := "id1", title := "Dup Title" }
      { baseArticle with id := "id2", title := "Dup Title" }
      (by decide) (by decide) (by simp) (by simp)).1

/-- Rows of a view query come from the filtered table: membership survives the
sort (a permutation) and the `LIMIT` truncation (a sublist). -/
theorem mem_view_query {db : List Article} {p : Article → Bool} {lim : Nat}
    {a : Article}
    (h : a ∈ (List.insertionSort viewOrder (db.filter p)).take lim) :
    a ∈ db ∧ p a = true :=
  List.mem_filter.mp
    ((List.perm_insertionSort viewOrder (db.filter p)).mem_iff.mp
      (List.Sublist.mem h (List.take_sublist _ _)))

/-- When the table fits under the limit, the `LIMIT` clause never truncates
and a view query returns exactly the rows passing its `WHERE` predicate. -/
theorem mem_view_query_complete {db : List Article} {p : Article → Bool}
    {lim : Nat} (hlim : db.length ≤ lim) (a : Article) :
    a ∈ (List.insertionSort viewOrder (db.filter p)).take lim ↔
      a ∈ db ∧ p a = true := by
  have hlen : (List.insertionSort viewOrder (db.filter p)).length ≤ lim := by
    rw [(List.perm_insertionSort viewOrder (db.filter p)).length_eq]
    exact le_trans (List.length_filter_le p db) hlim
  rw [List.take_of_length_le hlen,
    (List.perm_insertionSort viewOrder (db.filter p)).mem_iff]
  exact List.mem_filter

/-- A view query's rows are pairwise in `viewOrder`: sortedness of the
insertion sort survives the `LIMIT` truncation. -/
theorem view_query_sorted (l : List Article) (lim : Nat) :
    List.Pairwise viewOrder ((List.insertionSort viewOrder l).take lim) :=
  List.Pairwise.sublist (List.take_sublist _ _)
    (List.sorted_insertionSort viewOrder l)

/-- C5: each view restricts to its window — `latest` to the last 3 days,
`today` to publish times at or after local midnight, `week` to the last
7 days, `saved` to saved rows with no time window — and, whenever the limit
does not truncate (the table fits under it) and no feed/read filter is
requested, the result holds exactly the table rows inside that window
(membership iff, so the week view really reaches 7 days back where the
latest view stops at 3); every view's result is ordered unread before read
with `publishedAt` descending inside each group, and is capped at the
requested limit. -/
theorem listArticlesByView_spec (db : List Article) (fid rf : String)
    (lim : Nat) (now startOfToday : Int) (a : Article) :
    (a ∈ ListArticlesByView db "latest" fid rf lim now startOfToday →
      now - 3 * 86400 ≤ a.publishedAt) ∧
    (a ∈ ListArticlesByView db "today" fid rf lim now startOfToday →
      startOfToday ≤ a.publishedAt) ∧
    (a ∈ ListArticlesByView db "week" fid rf lim now startOfToday →
      now - 7 * 86400 ≤ a.publishedAt) ∧
    (a ∈ ListArticlesByView db "saved" fid rf lim now startOfToday →
      a.isSaved = true) ∧
    (db.length ≤ lim →
      (a ∈ ListArticlesByView db "latest" "all" "all" lim now startOfToday ↔
        a ∈ db ∧ now - 3 * 86400 ≤ a.publishedAt)) ∧
    (db.length ≤ lim →
      (a ∈ ListArticlesByView db "today" "all" "all" lim now startOfToday ↔
        a ∈ db ∧ startOfToday ≤ a.publishedAt)) ∧
    (db.length ≤ lim →
      (a ∈ ListArticlesByView db "week" "all" "all" lim now startOfToday ↔
        a ∈ db ∧ now - 7 * 86400 ≤ a.publishedAt)) ∧
    (db.length ≤ lim →
      (a ∈ ListArticlesByView db "saved" "all" "all" lim now startOfToday ↔
        a ∈ db ∧ a.isSaved = true)) ∧
    (∀ view,
      (ListArticlesByView db view fid rf lim now startOfToday).length ≤ lim) ∧
    (∀ view, List.Pairwise
      (fun x y => (x.isRead = false ∧ y.isRead = true) ∨
        (x.isRead = y.isRead ∧ y.publishedAt ≤ x.publishedAt))
      (ListArticlesByView db view fid rf lim now startOfToday)) := by
  refine ⟨?_, ?_, ?_, ?_, ?_, ?_, ?_, ?_, ?_, ?_⟩
  · intro h
    have hp := (mem_view_query h).2
    simp only [Bool.and_eq_true] at hp
    simpa using hp.1.1
  · intro h
    have hp := (mem_view_query h).2
    simp only [Bool.and_eq_true] at hp
    simpa using hp.1.1
  · intro h
    have hp := (mem_view_query h).2
    simp only [Bool.and_eq_true] at hp
    simpa using hp.1.1
  · intro h
    have hp := (mem_view_query h).2
    simp only [Bool.and_eq_true] at hp
    simpa using hp.1.1
  · intro hlim
    simp only [ListArticlesByView]
    rw [mem_view_query_complete hlim a]
    simp
  · intro hlim
    simp only [ListArticlesByView]
    rw [mem_view_query_complete hlim a]
    simp
  · intro hlim
    simp only [ListArticlesByView]
    rw [mem_view_query_complete hlim a]
    simp
  · intro hlim
    simp only [ListArticlesByView]
    rw [mem_view_query_complete hlim a]
    simp
  · intro view
    exact List.length_take_le _ _
  · intro view
    exact view_query_sorted _ lim

/-- Closed instance of `listArticlesByView_spec`: with a one-article table
under the limit, the saved view does return the saved article, and it is
indeed saved. -/
theorem listArticlesByView_spec_witness :
    ([{ baseArticle with id := "w5", isSaved := true }] : List Article).length ≤ 50 ∧
    { baseArticle with id := "w5", isSaved := true }
      ∈ ListArticlesByView [{ baseArticle with id := "w5", isSaved := true }]
        "saved" "all" "all" 50 0 0 ∧
    ({ baseArticle with id := "w5", isSaved := true } : Article).isSaved = true :=
  ⟨by decide,
    ((listArticlesByView_spec [{ baseArticle with id := "w5", isSaved := true }]
          "all" "all" 50 0 0
          { baseArticle with id := "w5", isSaved := true }).2.2.2.2.2.2.2.1
        (by decide)).mpr ⟨by decide, by decide⟩,
    by decide⟩

/-- `startsWithChars` decides the mathematical "is an initial segment of". -/
theorem startsWithChars_iff (p s : List Char) :
    startsWithChars p s = true ↔ ∃ r, s = p ++ r := by
  induction p generalizing s with
  | nil => simp [startsWithChars]
  | cons c cs ih =>
    cases s with
    | nil => simp [startsWithChars]
    | cons d ds =>
      simp only [startsWithChars, Bool.and_eq_true, beq_iff_eq, ih,
        List.cons_append, List.cons.injEq]
      constructor
      · rintro ⟨rfl, r, rfl⟩
        exact ⟨r, rfl, rfl⟩
      · rintro ⟨r, rfl, rfl⟩
        exact ⟨rfl, r, rfl⟩

/-- `containsChars` decides the mathematical "occurs contiguously in". -/
theorem containsChars_iff (p s : List Char) :
    containsChars p s = true ↔ ∃ l r, s = l ++ p ++ r := by
  induction s with
  | nil =>
    simp only [containsChars, startsWithChars_iff]
    constructor
    · rintro ⟨r, h⟩
      exact ⟨[], r, h⟩
    · rintro ⟨l, r, h⟩
      rcases List.append_eq_nil.mp h.symm with ⟨h1, h2⟩
      rcases List.append_eq_nil.mp h1 with ⟨rfl, rfl⟩
      exact ⟨r, h⟩
  | cons c cs ih =>
    simp only [containsChars, Bool.or_eq_true, ih, startsWithChars_iff]
    constructor
    · rintro (⟨r, h⟩ | ⟨l, r, rfl⟩)
      · exact ⟨[], r, h⟩
      · exact ⟨c :: l, r, rfl⟩
    · rintro ⟨l, r, h⟩
      cases l with
      | nil =>
        exact Or.inl ⟨r, h⟩
      | cons x xs =>
        rw [List.cons_append, List.cons_append] at h
        cases h
        exact Or.inr ⟨xs, r, rfl⟩

/-- `ShouldFilter` is the blocklist scan: the leading `isEmpty` short-circuit
coincides with `List.any` on an empty list. -/
theorem shouldFilter_eq_any (a : Article) (bl : List String) :
    ShouldFilter a bl = bl.any fun phrase =>
      let lowerPhrase := lowerChars (trimChars phrase.data)
      !lowerPhrase.isEmpty &&
        containsChars lowerPhrase (lowerChars (a.title ++ " " ++ a.summary).data) := by
  cases bl <;> simp [ShouldFilter]

/-- The kept component of `FilterArticles` is the batch minus the matches, in
original order. -/
theorem filterArticles_kept (articles : List Article) (bl : List String) :
    (FilterArticles articles bl).1
      = articles.filter fun x => !ShouldFilter x bl := by
  induction articles with
  | nil => rfl
  | cons a rest ih =>
    simp only [FilterArticles, List.filter_cons]
    cases h : ShouldFilter a bl <;> simp [h, ih]

/-- The count component of `FilterArticles` is the number of matches. -/
theorem filterArticles_count (articles : List Article) (bl : List String) :
    (FilterArticles articles bl).2
      = (articles.filter fun x => ShouldFilter x bl).length := by
  induction articles with
  | nil => rfl
  | cons a rest ih =>
    simp only [FilterArticles, List.filter_cons]
    cases h : ShouldFilter a bl <;> simp [h, ih]

/-- C7: `FilterArticles` partitions a batch into the kept articles and the
count of filtered ones; an article matches exactly when some blocklist phrase
with non-whitespace content occurs — after lowercasing both sides — inside
`title ++ " " ++ summary`; whitespace-only phrases never affect the outcome;
and the spec's example holds: phrase `"voldemort"` (and `"VOLDEMORT"`) filters
the article titled `"He Who Shall Not Be Named: Voldemort Returns"` and is
counted. -/
theorem blocklist_filter_spec (articles : List Article) (bl : List String)
    (a : Article) :
    ((FilterArticles articles bl).1
      = articles.filter fun x => !ShouldFilter x bl) ∧
    ((FilterArticles articles bl).2
      = (articles.filter fun x => ShouldFilter x bl).length) ∧
    ((FilterArticles articles bl).2 + (FilterArticles articles bl).1.length
      = articles.length) ∧
    (ShouldFilter a bl = true ↔
      ∃ phrase ∈ bl, lowerChars (trimChars phrase.data) ≠ [] ∧
        ∃ l r, lowerChars (a.title ++ " " ++ a.summary).data
          = l ++ lowerChars (trimChars phrase.data) ++ r) ∧
    (∀ p, trimChars p.data = [] →
      ShouldFilter a (p :: bl) = ShouldFilter a bl) ∧
    (ShouldFilter
        { baseArticle with title := "He Who Shall Not Be Named: Voldemort Returns" }
        ["voldemort"] = true) ∧
    (ShouldFilter
        { baseArticle with title := "He Who Shall Not Be Named: Voldemort Returns" }
        ["VOLDEMORT"] = true) ∧
    (FilterArticles
        [{ baseArticle with title := "He Who Shall Not Be Named: Voldemort Returns" }]
        ["voldemort"] = ([], 1)) := by
  refine ⟨filterArticles_kept articles bl, filterArticles_count articles bl,
    ?_, ?_, ?_, by decide, by decide, by decide⟩
  · rw [filterArticles_kept, filterArticles_count]
    exact filter_partition_length (fun x => ShouldFilter x bl) articles
  · rw [shouldFilter_eq_any]
    simp only [List.any_eq_true, Bool.and_eq_true, Bool.not_eq_true']
    constructor
    · rintro ⟨p, hp, h1, h2⟩
      exact ⟨p, hp, by simpa using h1, (containsChars_iff _ _).mp h2⟩
    · rintro ⟨p, hp, h1, h2⟩
      exact ⟨p, hp, by simpa using h1, (containsChars_iff _ _).mpr h2⟩
  · intro p hp
    rw [shouldFilter_eq_any, shouldFilter_eq_any]
    simp [hp, lowerChars]

/-- Closed instance of `blocklist_filter_spec`: a whitespace-only phrase is
ignored by the scan. -/
theorem blocklist_filter_spec_witness :
    trimChars ("   " : String).data = [] ∧
    ShouldFilter baseArticle ["   "] = ShouldFilter baseArticle [] :=
  ⟨by decide, (blocklist_filter_spec [] [] baseArticle).2.2.2.2.1 "   " (by decide)⟩

/-- C8: per parsed entry, the normalizer takes the GUID as identifier when it
is non-empty and the link otherwise, the published time falling back to the
updated time and then to the ingestion instant, the summary preferring the
description over the content, and the content preferring the content over the
description, so some text survives whenever either source field exists; the
entry-level rules are exactly what `ParseFeed` applies. -/
theorem normalizer_fallback_spec (feedURL feedID sourceName : String)
    (now : Int) (item : FeedItem) :
    ((normalizeItem feedURL feedID sourceName now item).id
      = GenerateArticleID feedURL
          (if item.guid = "" then item.link else item.guid)) ∧
    ((normalizeItem feedURL feedID sourceName now item).publishedAt
      = item.publishedParsed.getD (item.updatedParsed.getD now)) ∧
    ((normalizeItem feedURL feedID sourceName now item).summary
      = if item.description = "" then item.content else item.description) ∧
    ((normalizeItem feedURL feedID sourceName now item).content
      = if item.content = "" then item.description else item.content) ∧
    (item.description ≠ "" ∨ item.content ≠ "" →
      (normalizeItem feedURL feedID sourceName now item).summary ≠ "" ∨
        (normalizeItem feedURL feedID sourceName now item).content ≠ "") ∧
    (ParseFeed (.ok [item]) feedURL feedID sourceName now
      = .ok [normalizeItem feedURL feedID sourceName now item]) := by
  refine ⟨?_, ?_, ?_, ?_, ?_, rfl⟩
  · by_cases h : item.guid = "" <;> simp [normalizeItem, h]
  · cases hp : item.publishedParsed <;> cases hu : item.updatedParsed <;>
      simp [normalizeItem, hp, hu]
  · by_cases hd : item.description = "" <;> by_cases hc : item.content = "" <;>
      simp [normalizeItem, hd, hc]
  · by_cases hd : item.description = "" <;> by_cases hc : item.content = "" <;>
      simp [normalizeItem, hd, hc]
  · intro h
    by_cases hd : item.description = ""
    · rcases h with h | h
      · exact absurd hd h
      · exact Or.inr (by simp [normalizeItem, hd, h])
    · exact Or.inl (by simp [normalizeItem, hd])

/-- Closed instance of `normalizer_fallback_spec`: an entry with only a
description yields a populated summary or content. -/
theorem normalizer_fallback_spec_witness :
    (("d" : String) ≠ "" ∨ ("" : String) ≠ "") ∧
    ((normalizeItem "u" "f1" "src" 0
        { guid := "", link := "", title := "", description := "d", content := ""
          publishedParsed := none, updatedParsed := none }).summary ≠ "" ∨
      (normalizeItem "u" "f1" "src" 0
        { guid := "", link := "", title := "", description := "d", content := ""
          publishedParsed := none, updatedParsed := none }).content ≠ "") :=
  ⟨Or.inl (by decide),
    (normalizer_fallback_spec "u" "f1" "src" 0
        { guid := "", link := "", title := "", description := "d", content := ""
          publishedParsed := none, updatedParsed := none }).2.2.2.2.1
      (Or.inl (by decide))⟩

/-- C9: any status other than exactly 200 — 201 and 204 included — makes
`FetchFeed` return an error carrying no bytes; a 200 response returns the
body read through the limiting reader, i.e. silently truncated to
`maxResponseSize` (10 MiB). -/
theorem fetchFeed_status_spec (resp : HTTPResponse) :
    (resp.statusCode ≠ 200 →
      FetchFeed (.ok resp)
        = .error ("unexpected status code: " ++ toString resp.statusCode)) ∧
    (resp.statusCode = 200 →
      FetchFeed (.ok resp) = .ok (resp.body.take maxResponseSize)) ∧
    (resp.statusCode = 200 → ∀ bs, FetchFeed (.ok resp) = .ok bs →
      bs.length ≤ maxResponseSize) ∧
    (FetchFeed (.ok { statusCode := 201, body := [7] })
      = .error "unexpected status code: 201") ∧
    (FetchFeed (.ok { statusCode := 204, body := [9] })
      = .error "unexpected status code: 204") ∧
    (FetchFeed (.ok { statusCode := 200, body := [1, 2, 3] }) = .ok [1, 2, 3]) := by
  refine ⟨?_, ?_, ?_, rfl, rfl, rfl⟩
  · intro h
    simp [FetchFeed, h]
  · intro h
    simp [FetchFeed, h]
  · intro h bs he
    simp [FetchFeed, h] at he
    rw [← he]
    exact List.length_take_le _ _

/-- Closed instance of `fetchFeed_status_spec`: a 404 response is an error. -/
theorem fetchFeed_status_spec_witness :
    (404 ≠ 200) ∧
    FetchFeed (.ok { statusCode := 404, body := [1] })
      = .error ("unexpected status code: " ++ toString (404 : Nat)) :=
  ⟨by decide,
    (fetchFeed_status_spec { statusCode := 404, body := [1] }).1 (by decide)⟩

end CalmNews
